import Mathlib

/- Shallow embedding of `src/deploy.ts` and of the deploy-handling part of the
   action entry point. The external `exec` process invocation is modelled by a
   script of predetermined outcomes, consumed one invocation at a time, and
   JavaScript runtime exceptions are modelled by the `JsError` type. -/

/-- A JSON value as produced by `JSON.parse`. Numeric literals are kept as
their source text, since no property here depends on numeric evaluation. -/
inductive JsValue where
  | null
  | bool (b : Bool)
  | num (lexeme : String)
  | str (s : String)
  | arr (elems : List JsValue)
  | obj (members : List (String × JsValue))

/-- The kinds of JavaScript exceptions relevant to this code, plus the
`preconditionError` kind that the specification asks for (no code path in the
repository constructs it; it is needed to state that fact). -/
inductive JsError where
  | processFailure (message : String)
  | syntaxError
  | typeError (message : String)
  | preconditionError (message : String)
  | errorThrown (message : String)
deriving DecidableEq

/-- The double-quote character. -/
def quoteChar : Char := Char.ofNat 34

/-- The backslash character. -/
def backslashChar : Char := Char.ofNat 92

/-- The opening-brace character. -/
def lbraceChar : Char := Char.ofNat 123

/-- The closing-brace character. -/
def rbraceChar : Char := Char.ofNat 125

/-- Insignificant whitespace per the JSON grammar (RFC 8259), which is what
`JSON.parse` skips around tokens: space, tab, line feed, carriage return. -/
def isJsonWs (c : Char) : Bool :=
  c = ' ' || c = '\t' || c = '\n' || c = '\r'

def skipWs (l : List Char) : List Char := l.dropWhile isJsonWs

/-- Value of a hexadecimal digit, for `\uXXXX` string escapes. -/
def hexVal (c : Char) : Option Nat :=
  if '0' ≤ c ∧ c ≤ '9' then some (c.toNat - '0'.toNat)
  else if 'a' ≤ c ∧ c ≤ 'f' then some (c.toNat - 'a'.toNat + 10)
  else if 'A' ≤ c ∧ c ≤ 'F' then some (c.toNat - 'A'.toNat + 10)
  else none

/-- Body of a JSON string literal, after the opening quote: ordinary
characters, the escape sequences of the JSON grammar, and a rejection of raw
control characters, as in `JSON.parse`. -/
def parseStringBody : Nat → List Char → List Char → Option (String × List Char)
  | 0, _, _ => none
  | _ + 1, _, [] => none
  | fuel + 1, acc, c :: rest =>
    if c = quoteChar then some (String.mk acc.reverse, rest)
    else if c = backslashChar then
      match rest with
      | [] => none
      | e :: rest2 =>
        if e = quoteChar then parseStringBody fuel (quoteChar :: acc) rest2
        else if e = backslashChar then parseStringBody fuel (backslashChar :: acc) rest2
        else if e = '/' then parseStringBody fuel ('/' :: acc) rest2
        else if e = 'b' then parseStringBody fuel (Char.ofNat 8 :: acc) rest2
        else if e = 'f' then parseStringBody fuel (Char.ofNat 12 :: acc) rest2
        else if e = 'n' then parseStringBody fuel ('\n' :: acc) rest2
        else if e = 'r' then parseStringBody fuel ('\r' :: acc) rest2
        else if e = 't' then parseStringBody fuel ('\t' :: acc) rest2
        else if e = 'u' then
          match rest2 with
          | h1 :: h2 :: h3 :: h4 :: rest3 =>
            match hexVal h1, hexVal h2, hexVal h3, hexVal h4 with
            | some a, some b, some c2, some d =>
              parseStringBody fuel
                (Char.ofNat (((a * 16 + b) * 16 + c2) * 16 + d) :: acc) rest3
            | _, _, _, _ => none
          | _ => none
        else none
    else if c.toNat < 32 then none
    else parseStringBody fuel (c :: acc) rest

def digitSpan (l : List Char) : List Char × List Char :=
  (l.takeWhile Char.isDigit, l.dropWhile Char.isDigit)

/-- A JSON number token, kept as its lexeme:
`-? (0 | [1-9][0-9]*) (. [0-9]+)? ([eE][+-]?[0-9]+)?`. -/
def parseNumber (l : List Char) : Option (String × List Char) :=
  let signSplit : List Char × List Char :=
    match l with
    | '-' :: r => (['-'], r)
    | _ => ([], l)
  let sign := signSplit.1
  match signSplit.2 with
  | [] => none
  | c :: rest =>
    if ¬ c.isDigit then none
    else
      let intSplit : List Char × List Char :=
        if c = '0' then (['0'], rest) else digitSpan (c :: rest)
      let fracRes : Option (List Char × List Char) :=
        match intSplit.2 with
        | '.' :: r =>
          let ds := digitSpan r
          if ds.1.isEmpty then none else some ('.' :: ds.1, ds.2)
        | l2 => some ([], l2)
      match fracRes with
      | none => none
      | some (fracPart, l3) =>
        let expRes : Option (List Char × List Char) :=
          match l3 with
          | e :: r =>
            if e = 'e' ∨ e = 'E' then
              let sgnSplit : List Char × List Char :=
                match r with
                | '+' :: rr => (['+'], rr)
                | '-' :: rr => (['-'], rr)
                | _ => ([], r)
              let ds := digitSpan sgnSplit.2
              if ds.1.isEmpty then none else some (e :: (sgnSplit.1 ++ ds.1), ds.2)
            else some ([], l3)
          | [] => some ([], l3)
        match expRes with
        | none => none
        | some (expPart, l4) =>
          some (String.mk (sign ++ intSplit.1 ++ fracPart ++ expPart), l4)

def matchLit (lit : List Char) (l : List Char) : Option (List Char) :=
  if l.take lit.length = lit then some (l.drop lit.length) else none

/-- Intermediate results of the JSON parser: a value, the elements of an
array, or the members of an object. -/
inductive PRes where
  | v (x : JsValue)
  | vs (xs : List JsValue)
  | ms (kvs : List (String × JsValue))

/-- What the JSON parser is currently parsing: one value, the remaining
elements of a non-empty array, or the remaining members of a non-empty
object. -/
inductive PMode where
  | val
  | arrMore
  | objMore

/-- Fueled recursive descent over the JSON grammar, following what
`JSON.parse` accepts. Object members are collected in source order. -/
def parseCore : Nat → PMode → List Char → Option (PRes × List Char)
  | 0, _, _ => none
  | fuel + 1, PMode.val, l =>
    match skipWs l with
    | [] => none
    | c :: rest =>
      if c = quoteChar then
        match parseStringBody fuel [] rest with
        | some (s, r) => some (PRes.v (JsValue.str s), r)
        | none => none
      else if c = '[' then
        match skipWs rest with
        | ']' :: r => some (PRes.v (JsValue.arr []), r)
        | l2 =>
          match parseCore fuel PMode.arrMore l2 with
          | some (PRes.vs xs, r) => some (PRes.v (JsValue.arr xs), r)
          | _ => none
      else if c = lbraceChar then
        match skipWs rest with
        | [] => none
        | c2 :: r =>
          if c2 = rbraceChar then some (PRes.v (JsValue.obj []), r)
          else
            match parseCore fuel PMode.objMore (c2 :: r) with
            | some (PRes.ms kvs, r2) => some (PRes.v (JsValue.obj kvs), r2)
            | _ => none
      else
        match matchLit ['t', 'r', 'u', 'e'] (c :: rest) with
        | some r => some (PRes.v (JsValue.bool true), r)
        | none =>
          match matchLit ['f', 'a', 'l', 's', 'e'] (c :: rest) with
          | some r => some (PRes.v (JsValue.bool false), r)
          | none =>
            match matchLit ['n', 'u', 'l', 'l'] (c :: rest) with
            | some r => some (PRes.v JsValue.null, r)
            | none =>
              match parseNumber (c :: rest) with
              | some (lex, r) => some (PRes.v (JsValue.num lex), r)
              | none => none
  | fuel + 1, PMode.arrMore, l =>
    match parseCore fuel PMode.val l with
    | some (PRes.v x, r) =>
      (match skipWs r with
       | ']' :: r2 => some (PRes.vs [x], r2)
       | ',' :: r2 =>
         match parseCore fuel PMode.arrMore r2 with
         | some (PRes.vs xs, r3) => some (PRes.vs (x :: xs), r3)
         | _ => none
       | _ => none)
    | _ => none
  | fuel + 1, PMode.objMore, l =>
    match skipWs l with
    | [] => none
    | c :: rest =>
      if c = quoteChar then
        match parseStringBody fuel [] rest with
        | some (key, r) =>
          (match skipWs r with
           | ':' :: r2 =>
             match parseCore fuel PMode.val r2 with
             | some (PRes.v x, r3) =>
               (match skipWs r3 with
                | [] => none
                | c3 :: r4 =>
                  if c3 = rbraceChar then some (PRes.ms [(key, x)], r4)
                  else if c3 = ',' then
                    match parseCore fuel PMode.objMore r4 with
                    | some (PRes.ms kvs, r5) => some (PRes.ms ((key, x) :: kvs), r5)
                    | _ => none
                  else none)
             | _ => none
           | _ => none)
        | none => none
      else none

/-- `JSON.parse`: one JSON value, surrounded by nothing but JSON whitespace.
Any failure surfaces as a `SyntaxError`. The fuel bound exceeds the deepest
possible chain of recursive calls for an input of this length. -/
def jsonParse (s : String) : Except JsError JsValue :=
  match parseCore (2 * s.length + 16) PMode.val s.toList with
  | some (PRes.v x, rest) =>
    if (skipWs rest).isEmpty then Except.ok x else Except.error JsError.syntaxError
  | _ => Except.error JsError.syntaxError

/-- The code points removed by JavaScript `String.prototype.trim`: the
WhiteSpace and LineTerminator productions of ECMA-262. Strictly larger than
the JSON whitespace set (it also contains NO-BREAK SPACE and others). -/
def isJsTrimWhitespace (c : Char) : Bool :=
  [0x9, 0xA, 0xB, 0xC, 0xD, 0x20, 0xA0, 0x1680, 0x2028, 0x2029,
    0x202F, 0x205F, 0x3000, 0xFEFF].contains c.toNat
  || (0x2000 ≤ c.toNat && c.toNat ≤ 0x200A)

/-- JavaScript `String.prototype.trim`. -/
def jsTrim (s : String) : String :=
  String.mk
    (((s.toList.dropWhile isJsTrimWhitespace).reverse.dropWhile
        isJsTrimWhitespace).reverse)

/-- Property access on a parsed JSON value, as on the object built by
`JSON.parse`: for duplicate keys the last member wins; access on a non-object
yields `undefined` (`none`). -/
def jsGet (v : JsValue) (key : String) : Option JsValue :=
  match v with
  | JsValue.obj kvs =>
    match kvs.reverse.find? (fun kv => kv.1 == key) with
    | some kv => some kv.2
    | none => none
  | _ => none

/-- `AuthOptions` from `deploy.ts`: an optional credential-file reference and
an optional token, both plain strings when present. -/
structure AuthOptions where
  gacFilename : Option String
  firebaseToken : Option String

/-- `SiteDeploy` from `deploy.ts`. -/
structure SiteDeploy where
  site : String
  target : Option String
  url : String
  expireTime : String
deriving DecidableEq

/-- `ChannelSuccessResult` from `deploy.ts`: `status` is the fixed literal
`"success"`, and `result` is a string-keyed mapping of `SiteDeploy` values,
kept here as a list of pairs in insertion order, which is the iteration order
of a JavaScript object built by sequential insertion. -/
structure ChannelSuccessResult where
  result : List (String × SiteDeploy)

/-- `ChannelDeployConfig` from `deploy.ts` (the `DeployConfig` base flattened
in). Optional fields are `Option`s; `expires` and `channelId` are plain
strings as in the source type. -/
structure ChannelDeployConfig where
  projectId : String
  targets : Option (List String)
  config : Option String
  firebaseToolsVersion : Option String
  expires : String
  channelId : String

/-- `ProductionDeployConfig` from `deploy.ts`. -/
structure ProductionDeployConfig where
  projectId : String
  targets : Option (List String)
  config : Option String
  firebaseToolsVersion : Option String

/-- JavaScript truthiness of a string: false exactly on the empty string. -/
def strTruthy (s : String) : Bool := s ≠ ""

/-- JavaScript truthiness of an optional string: false on `undefined` and on
the empty string. -/
def optTruthy (o : Option String) : Bool :=
  match o with
  | some s => s ≠ ""
  | none => false

/-- The JavaScript idiom `x || d` on an optional string with a non-empty
default `d`. -/
def optValD (o : Option String) (d : String) : String :=
  match o with
  | some s => if s ≠ "" then s else d
  | none => d

/-- One scripted outcome of the external `exec` call: the stdout chunks the
listener pushes into `deployOutputBuf`, and `some message` when the process
invocation rejects (non-zero exit). -/
structure ExecOutcome where
  chunks : List String
  err : Option String
deriving DecidableEq

/-- One recorded invocation of `exec`: the command line and the composed
argument list it was given. -/
structure CallRecord where
  cmd : String
  args : List String
deriving DecidableEq

/-- What a run of `execWithCredentials` produced: its return value or the
exception it threw, together with every `exec` invocation it performed, in
order. -/
structure ExecTrace where
  result : Except JsError String
  calls : List CallRecord

/-- The argument list composed inside `execWithCredentials` (deploy.ts lines
90-97): `args`, then `--project <projectId>` iff `projectId` is truthy, then
`--token <token>` iff `auth.firebaseToken` is truthy, then `"--debug"` when
`debug` is true and the empty string `""` when it is false. -/
def composedArgs (args : List String) (projectId : String) (auth : AuthOptions)
    (debug : Bool) : List String :=
  args
    ++ (if strTruthy projectId then ["--project", projectId] else [])
    ++ (if optTruthy auth.firebaseToken then ["--token", auth.firebaseToken.getD ""] else [])
    ++ [if debug then "--debug" else ""]

/-- `deployOutputBuf.length ? deployOutputBuf[deployOutputBuf.length - 1] : ""`
(deploy.ts lines 130-132): the last captured chunk, verbatim, or the empty
string when nothing was captured. -/
def lastChunkOrEmpty (chunks : List String) : String :=
  match chunks.getLast? with
  | some c => c
  | none => ""

/-- `execWithCredentials` from `deploy.ts` (lines 77-133). The script supplies
the outcome of each `exec` invocation in order; an invocation beyond the end
of the script exits cleanly with no output. On failure with `debug` false the
function re-invokes itself with `debug: true` and the resolved tool version;
if that retry throws, the exception propagates, and if it succeeds, its
return value is discarded and the original (outer) buffer is returned. -/
def execWithCredentials (script : List ExecOutcome) (args : List String)
    (projectId : String) (auth : AuthOptions) (optsDebug : Option Bool)
    (optsVersion : Option String) : ExecTrace :=
  let debug := optsDebug.getD false
  let firebaseToolsVersion := optValD optsVersion "latest"
  let call : CallRecord :=
    ⟨"npx firebase-tools@" ++ firebaseToolsVersion,
      composedArgs args projectId auth debug⟩
  match script with
  | [] => ⟨Except.ok "", [call]⟩
  | o :: rest =>
    match o.err with
    | none => ⟨Except.ok (lastChunkOrEmpty o.chunks), [call]⟩
    | some m =>
      if debug then ⟨Except.error (JsError.processFailure m), [call]⟩
      else
        let retry :=
          execWithCredentials rest args projectId auth (some true)
            (some firebaseToolsVersion)
        match retry.result with
        | Except.error e => ⟨Except.error e, call :: retry.calls⟩
        | Except.ok _ => ⟨Except.ok (lastChunkOrEmpty o.chunks), call :: retry.calls⟩

/-- What a deploy function produced: the parsed deployment result or the
exception that propagated, together with the `exec` invocations performed. -/
structure DeployTrace where
  result : Except JsError JsValue
  calls : List CallRecord

/-- The base argument list composed by `deployPreview` (deploy.ts lines
143-149). -/
def deployPreviewArgs (c : ChannelDeployConfig) : List String :=
  ["hosting:channel:deploy", c.channelId]
    ++ (if optTruthy c.config then ["--config", c.config.getD ""] else [])
    ++ (match c.targets with
        | some ts => if 0 < ts.length then ["--only", String.intercalate "," ts] else []
        | none => [])
    ++ (if strTruthy c.expires then ["--expires", c.expires] else [])

/-- `deployPreview` from `deploy.ts` (lines 135-160): runs
`execWithCredentials` with the preview argument list and no `debug` option,
then `JSON.parse`s the trimmed output text. The parsed value is returned as
is; the `as` cast in the source performs no validation. -/
def deployPreview (script : List ExecOutcome) (auth : AuthOptions)
    (deployConfig : ChannelDeployConfig) : DeployTrace :=
  let t :=
    execWithCredentials script (deployPreviewArgs deployConfig)
      deployConfig.projectId auth none deployConfig.firebaseToolsVersion
  match t.result with
  | Except.error e => ⟨Except.error e, t.calls⟩
  | Except.ok deploymentText => ⟨jsonParse (jsTrim deploymentText), t.calls⟩

/-- The base argument list composed by `deployProductionSite` (deploy.ts lines
169-173). -/
def deployProductionSiteArgs (c : ProductionDeployConfig) : List String :=
  ["deploy"]
    ++ (if optTruthy c.config then ["--config", c.config.getD ""] else [])
    ++ (match c.targets with
        | some ts => if 0 < ts.length then ["--only", String.intercalate "," ts] else []
        | none => [])

/-- `deployProductionSite` from `deploy.ts` (lines 162-184): like
`deployPreview` but with the production argument list, and `JSON.parse`
applied to the raw output text without trimming. -/
def deployProductionSite (script : List ExecOutcome) (auth : AuthOptions)
    (productionDeployConfig : ProductionDeployConfig) : DeployTrace :=
  let t :=
    execWithCredentials script (deployProductionSiteArgs productionDeployConfig)
      productionDeployConfig.projectId auth none
      productionDeployConfig.firebaseToolsVersion
  match t.result with
  | Except.error e => ⟨Except.error e, t.calls⟩
  | Except.ok deploymentText => ⟨jsonParse deploymentText, t.calls⟩

/-- `InterpretedChannelResult`, the record returned by
`interpretChannelDeployResult`. -/
structure InterpretedChannelResult where
  expireTime : String
  expire_time_formatted : String
  urls : List String
deriving DecidableEq

/-- `interpretChannelDeployResult` from `deploy.ts` (lines 59-73).
`toUTCString` stands for the library call `new Date(s).toUTCString()`, the
RFC-1123 renderer, passed in as a parameter since it is external library
behaviour. `Object.values` of the success mapping is its values in insertion
order; on an empty mapping, `allSiteResults[0]` is `undefined` and the
`.expireTime` access throws a `TypeError`. -/
def interpretChannelDeployResult (toUTCString : String → String)
    (deployResult : ChannelSuccessResult) :
    Except JsError InterpretedChannelResult :=
  let allSiteResults := deployResult.result.map Prod.snd
  match allSiteResults with
  | [] => Except.error
      (JsError.typeError "Cannot read properties of undefined (reading expireTime)")
  | firstSite :: _ =>
    Except.ok
      ⟨firstSite.expireTime, toUTCString firstSite.expireTime,
        allSiteResults.map (fun siteResult => siteResult.url)⟩

/-- The deployment-status check performed by the action entry point after a
deploy (`run`, entry-point lines 164-166): a result whose `status` field is
the string `"error"` is converted into a thrown `Error` carrying the `error`
field (typed as a string in `ErrorResult`); any other result flows onward
unchanged. -/
def runCheckDeployment (deployment : JsValue) : Except JsError JsValue :=
  match jsGet deployment "status" with
  | some (JsValue.str s) =>
    if s = "error" then
      Except.error
        (JsError.errorThrown
          (match jsGet deployment "error" with
           | some (JsValue.str m) => m
           | _ => ""))
    else Except.ok deployment
  | _ => Except.ok deployment

/-- An auth context with neither a credential file nor a token. -/
def auth0 : AuthOptions := ⟨none, none⟩

/-- A minimal channel-deploy configuration. -/
def previewCfg0 : ChannelDeployConfig := ⟨"", none, none, none, "", "chan"⟩

/-- A minimal production-deploy configuration. -/
def prodCfg0 : ProductionDeployConfig := ⟨"", none, none, none⟩

/-- The first site of the specification's two-site example. -/
def siteA : SiteDeploy := ⟨"siteA", none, "https://a", "2024-01-01T00:00:00.000Z"⟩

/-- The second site of the specification's two-site example. -/
def siteB : SiteDeploy := ⟨"siteB", none, "https://b", "2024-01-02T00:00:00.000Z"⟩

/-- A script whose first two invocations both fail. -/
def execScriptC1 : List ExecOutcome :=
  [⟨["partial"], some ("boom1")⟩, ⟨[], some ("boom2")⟩]

theorem getLast?_append_singleton (l : List String) (x : String) :
    (l ++ [x]).getLast? = some x := by
  induction l with
  | nil => rfl
  | cons a t ih =>
    cases t with
    | nil => rfl
    | cons b t2 => simpa using ih

theorem composedArgs_eq_concat (args : List String) (projectId : String)
    (auth : AuthOptions) (debug : Bool) :
    composedArgs args projectId auth debug =
      (args ++ (if strTruthy projectId then ["--project", projectId] else [])
        ++ (if optTruthy auth.firebaseToken then ["--token", auth.firebaseToken.getD ""] else []))
      ++ [if debug then "--debug" else ""] := by
  simp [composedArgs, List.append_assoc]

theorem composedArgs_getLast? (args : List String) (projectId : String)
    (auth : AuthOptions) (debug : Bool) :
    (composedArgs args projectId auth debug).getLast? =
      some (if debug then "--debug" else "") := by
  rw [composedArgs_eq_concat, getLast?_append_singleton]

theorem execWithCredentials_ok (o : ExecOutcome) (rest : List ExecOutcome)
    (args : List String) (projectId : String) (auth : AuthOptions)
    (optsDebug : Option Bool) (optsVersion : Option String) (h : o.err = none) :
    execWithCredentials (o :: rest) args projectId auth optsDebug optsVersion =
      ⟨Except.ok (lastChunkOrEmpty o.chunks),
        [⟨"npx firebase-tools@" ++ optValD optsVersion "latest",
          composedArgs args projectId auth (optsDebug.getD false)⟩]⟩ := by
  simp [execWithCredentials, h]

theorem execWithCredentials_calls_head (script : List ExecOutcome)
    (args : List String) (projectId : String) (auth : AuthOptions)
    (optsDebug : Option Bool) (optsVersion : Option String) :
    (execWithCredentials script args projectId auth optsDebug optsVersion).calls.head? =
      some ⟨"npx firebase-tools@" ++ optValD optsVersion "latest",
        composedArgs args projectId auth (optsDebug.getD false)⟩ := by
  cases script with
  | nil => rfl
  | cons o rest =>
    cases h : o.err with
    | none => simp [execWithCredentials, h]
    | some m =>
      by_cases hd : optsDebug.getD false = true
      · simp [execWithCredentials, h, hd]
      · simp only [execWithCredentials, h, hd]
        simp only [Bool.false_eq_true, if_false]
        cases hr : (execWithCredentials rest args projectId auth (some true)
            (some (optValD optsVersion "latest"))).result with
        | error e => simp [hr, hd]
        | ok s => simp [hr, hd]

theorem deployPreview_result (o : ExecOutcome) (rest : List ExecOutcome)
    (auth : AuthOptions) (cfg : ChannelDeployConfig) (h : o.err = none) :
    (deployPreview (o :: rest) auth cfg).result =
      jsonParse (jsTrim (lastChunkOrEmpty o.chunks)) := by
  simp [deployPreview, execWithCredentials_ok _ _ _ _ _ _ _ h]

theorem deployProductionSite_result (o : ExecOutcome) (rest : List ExecOutcome)
    (auth : AuthOptions) (cfg : ProductionDeployConfig) (h : o.err = none) :
    (deployProductionSite (o :: rest) auth cfg).result =
      jsonParse (lastChunkOrEmpty o.chunks) := by
  simp [deployProductionSite, execWithCredentials_ok _ _ _ _ _ _ _ h]

theorem deployPreview_calls (script : List ExecOutcome) (auth : AuthOptions)
    (cfg : ChannelDeployConfig) :
    (deployPreview script auth cfg).calls =
      (execWithCredentials script (deployPreviewArgs cfg) cfg.projectId auth none
        cfg.firebaseToolsVersion).calls := by
  cases h : (execWithCredentials script (deployPreviewArgs cfg) cfg.projectId auth none
      cfg.firebaseToolsVersion).result with
  | error e => simp [deployPreview, h]
  | ok s => simp [deployPreview, h]

theorem optValD_latest_idem (o : Option String) :
    optValD (some (optValD o "latest")) "latest" = optValD o "latest" := by
  cases o with
  | none => rfl
  | some s =>
    by_cases h : s = ""
    · simp [optValD, h]
    · simp [optValD, h]

theorem execWithCredentials_some_true (script : List ExecOutcome)
    (args : List String) (projectId : String) (auth : AuthOptions)
    (optsVersion : Option String) :
    (execWithCredentials script args projectId auth (some true) optsVersion).calls =
      [⟨"npx firebase-tools@" ++ optValD optsVersion "latest",
        composedArgs args projectId auth true⟩]
    ∧ (∀ o rest m, script = o :: rest → o.err = some m →
        (execWithCredentials script args projectId auth (some true) optsVersion).result =
          Except.error (JsError.processFailure m)) := by
  constructor
  · cases script with
    | nil => rfl
    | cons o rest =>
      cases h : o.err with
      | none => simp [execWithCredentials, h]
      | some m => simp [execWithCredentials, h]
  · rintro o rest m rfl hm
    simp [execWithCredentials, hm]

/-- C1: if the process invocation fails and `options.debug` was false, exactly
one retry occurs with the same base arguments, project id, auth and resolved
tool version but with debug forced true (so exactly two invocations are
recorded, the second ending in `--debug`); if the retry also fails, its error
propagates; and a failure with debug already true propagates immediately with
a single invocation. -/
theorem c1_retry_policy (o1 : ExecOutcome) (rest : List ExecOutcome)
    (args : List String) (projectId : String) (auth : AuthOptions)
    (optsDebug : Option Bool) (optsVersion : Option String) (m1 : String)
    (h1 : o1.err = some m1) (hd : optsDebug.getD false = false) :
    (execWithCredentials (o1 :: rest) args projectId auth optsDebug optsVersion).calls =
        [⟨"npx firebase-tools@" ++ optValD optsVersion "latest",
            composedArgs args projectId auth false⟩,
          ⟨"npx firebase-tools@" ++ optValD optsVersion "latest",
            composedArgs args projectId auth true⟩]
    ∧ (∀ o2 rest2 m2, rest = o2 :: rest2 → o2.err = some m2 →
        (execWithCredentials (o1 :: rest) args projectId auth optsDebug optsVersion).result =
          Except.error (JsError.processFailure m2))
    ∧ (execWithCredentials (o1 :: rest) args projectId auth (some true) optsVersion).calls =
        [⟨"npx firebase-tools@" ++ optValD optsVersion "latest",
            composedArgs args projectId auth true⟩]
    ∧ (execWithCredentials (o1 :: rest) args projectId auth (some true) optsVersion).result =
        Except.error (JsError.processFailure m1) := by
  have hfbv := optValD_latest_idem optsVersion
  have hretry :=
    execWithCredentials_some_true rest args projectId auth (some (optValD optsVersion "latest"))
  refine ⟨?_, ?_, ?_, ?_⟩
  · simp only [execWithCredentials, h1, hd, Bool.false_eq_true, if_false]
    cases hr : (execWithCredentials rest args projectId auth (some true)
        (some (optValD optsVersion "latest"))).result with
    | error e => simp [hr, hretry.1, hfbv]
    | ok s => simp [hr, hretry.1, hfbv]
  · rintro o2 rest2 m2 rfl h2
    simp [execWithCredentials, h1, hd, h2]
  · exact (execWithCredentials_some_true (o1 :: rest) args projectId auth optsVersion).1
  · exact (execWithCredentials_some_true (o1 :: rest) args projectId auth optsVersion).2
      o1 rest m1 rfl h1

/-- Witness for C1: a script whose first two invocations fail, run with no
debug option; two invocations are recorded, the second with `--debug`, and
the second failure propagates. -/
theorem c1_retry_policy_witness :
    (ExecOutcome.mk ["partial"] (some ("boom1"))).err = some ("boom1")
    ∧ (none : Option Bool).getD false = false
    ∧ (execWithCredentials execScriptC1 ["deploy"] ("proj") auth0 none none).calls =
        [⟨"npx firebase-tools@" ++ optValD none "latest",
            composedArgs ["deploy"] ("proj") auth0 false⟩,
          ⟨"npx firebase-tools@" ++ optValD none "latest",
            composedArgs ["deploy"] ("proj") auth0 true⟩]
    ∧ (execWithCredentials execScriptC1 ["deploy"] ("proj") auth0 none none).result =
        Except.error (JsError.processFailure ("boom2")) := by
  refine ⟨rfl, rfl, ?_, ?_⟩
  · exact (c1_retry_policy ⟨["partial"], some ("boom1")⟩ [⟨[], some ("boom2")⟩]
      ["deploy"] ("proj") auth0 none none ("boom1") rfl rfl).1
  · exact (c1_retry_policy ⟨["partial"], some ("boom1")⟩ [⟨[], some ("boom2")⟩]
      ["deploy"] ("proj") auth0 none none ("boom1") rfl rfl).2.1
      ⟨[], some ("boom2")⟩ [] ("boom2") rfl rfl

/-- C2 counterexample: with debug false, the composed argument list handed to
the external process does contain an empty-string argument, so the claim that
no empty-string argument appears is false on the code. -/
theorem c2_empty_arg_counterexample :
    (execWithCredentials [⟨["out"], none⟩] ["deploy"] ("proj") auth0 none none).calls =
      [⟨"npx firebase-tools@latest", ["deploy", "--project", "proj", ""]⟩]
    ∧ "" ∈ ["deploy", "--project", "proj", ""] := by
  exact ⟨rfl, by decide⟩

/-- C2 amended: the `--debug` slot is never omitted; the composed argument
list always ends with `"--debug"` when debug is true and with the
empty-string placeholder `""` when debug is false, and a call started without
a debug option records exactly that debug-false list for its first
invocation. -/
theorem c2_debug_flag_amended (script : List ExecOutcome) (args : List String)
    (projectId : String) (auth : AuthOptions) (optsVersion : Option String) :
    ((execWithCredentials script args projectId auth none optsVersion).calls.head?).map
        CallRecord.args = some (composedArgs args projectId auth false)
    ∧ (composedArgs args projectId auth false).getLast? = some ""
    ∧ (composedArgs args projectId auth true).getLast? = some "--debug" := by
  refine ⟨?_, ?_, ?_⟩
  · rw [execWithCredentials_calls_head]
    rfl
  · simpa using composedArgs_getLast? args projectId auth false
  · simpa using composedArgs_getLast? args projectId auth true

/-- C4 counterexample: the first invocation fails after capturing the chunk
`"PARTIAL"`, the retry succeeds with different output, and the value returned
as the success value is exactly the failed first attempt's captured chunk. -/
theorem c4_stale_buffer_counterexample :
    (execWithCredentials
        [⟨["PARTIAL"], some ("boom")⟩, ⟨["\x7b\"status\":\"success\"\x7d"], none⟩]
        ["deploy"] "" auth0 none none).result = Except.ok ("PARTIAL")
    ∧ "PARTIAL" ≠ "\x7b\"status\":\"success\"\x7d" := by
  exact ⟨rfl, by decide⟩

/-- C4 amended: when the first invocation fails with debug false and the
retry succeeds, the value returned to the caller is the last chunk of the
first, failed attempt's buffer; the retry's captured output is discarded. -/
theorem c4_stale_buffer_amended (o1 o2 : ExecOutcome) (rest : List ExecOutcome)
    (args : List String) (projectId : String) (auth : AuthOptions)
    (optsVersion : Option String) (m1 : String)
    (h1 : o1.err = some m1) (h2 : o2.err = none) :
    (execWithCredentials (o1 :: o2 :: rest) args projectId auth none optsVersion).result =
      Except.ok (lastChunkOrEmpty o1.chunks) := by
  simp [execWithCredentials, h1, h2]

/-- Witness for C4 at a concrete script: first invocation fails with buffer
`["PARTIAL"]`, retry succeeds with buffer `["GOOD"]`, and `"PARTIAL"` is
returned. -/
theorem c4_stale_buffer_amended_witness :
    (ExecOutcome.mk ["PARTIAL"] (some ("boom"))).err = some ("boom")
    ∧ (ExecOutcome.mk ["GOOD"] none).err = none
    ∧ (execWithCredentials [⟨["PARTIAL"], some ("boom")⟩, ⟨["GOOD"], none⟩]
        ["deploy"] "" auth0 none none).result = Except.ok ("PARTIAL") := by
  refine ⟨rfl, rfl, ?_⟩
  exact c4_stale_buffer_amended ⟨["PARTIAL"], some ("boom")⟩ ⟨["GOOD"], none⟩ []
    ["deploy"] "" auth0 none ("boom") rfl rfl

/-- C7 counterexample: a successful invocation whose last captured chunk ends
in a newline returns that chunk verbatim, not trimmed, so the claim that the
returned value is the trimmed last chunk is false on the code. -/
theorem c7_untrimmed_counterexample :
    (execWithCredentials [⟨["ok\n"], none⟩] [] "" auth0 none none).result =
      Except.ok ("ok\n")
    ∧ jsTrim ("ok\n") = "ok"
    ∧ "ok\n" ≠ "ok" := by
  exact ⟨rfl, rfl, by decide⟩

/-- C7 amended: a successful invocation returns the last captured chunk
verbatim (no trimming), and the empty string when no chunk was captured. -/
theorem c7_last_chunk_amended (o : ExecOutcome) (rest : List ExecOutcome)
    (args : List String) (projectId : String) (auth : AuthOptions)
    (optsDebug : Option Bool) (optsVersion : Option String) (h : o.err = none) :
    (execWithCredentials (o :: rest) args projectId auth optsDebug optsVersion).result =
      Except.ok (lastChunkOrEmpty o.chunks)
    ∧ (o.chunks = [] →
        (execWithCredentials (o :: rest) args projectId auth optsDebug optsVersion).result =
          Except.ok "") := by
  constructor
  · simp [execWithCredentials, h]
  · intro hc
    simp [execWithCredentials, h, hc, lastChunkOrEmpty]

/-- Witness for C7: a successful invocation with chunks `["a", "b\n"]`
returns `"b\n"` untouched. -/
theorem c7_last_chunk_amended_witness :
    (ExecOutcome.mk ["a", "b\n"] none).err = none
    ∧ (execWithCredentials [⟨["a", "b\n"], none⟩] [] "" auth0 none none).result =
        Except.ok ("b\n") := by
  refine ⟨rfl, ?_⟩
  exact (c7_last_chunk_amended ⟨["a", "b\n"], none⟩ [] [] "" auth0 none none rfl).1

/-- C5 counterexample: on an empty success mapping,
`interpretChannelDeployResult` propagates the undefined first-element access
as a `TypeError`; it does not fail with a `PreconditionError`. -/
theorem c5_undefined_access_counterexample :
    interpretChannelDeployResult (fun s => s) ⟨[]⟩ =
      Except.error
        (JsError.typeError "Cannot read properties of undefined (reading expireTime)")
    ∧ JsError.typeError "Cannot read properties of undefined (reading expireTime)" ≠
        JsError.preconditionError
          "Cannot read properties of undefined (reading expireTime)" := by
  exact ⟨rfl, by decide⟩

/-- C5 amended: on a success result with zero site entries,
`interpretChannelDeployResult` fails with the `TypeError` arising from the
out-of-bounds first-element access — not with a dedicated `PreconditionError`
— and never returns a silent empty interpretation. -/
theorem c5_empty_mapping_amended (toUTCString : String → String)
    (deployResult : ChannelSuccessResult) (h : deployResult.result = []) :
    interpretChannelDeployResult toUTCString deployResult =
      Except.error
        (JsError.typeError "Cannot read properties of undefined (reading expireTime)") := by
  simp [interpretChannelDeployResult, h]

/-- Witness for C5 at the empty mapping. -/
theorem c5_empty_mapping_amended_witness :
    (ChannelSuccessResult.mk []).result = []
    ∧ interpretChannelDeployResult (fun s => s ++ "?") ⟨[]⟩ =
        Except.error
          (JsError.typeError "Cannot read properties of undefined (reading expireTime)") := by
  refine ⟨rfl, ?_⟩
  exact c5_empty_mapping_amended (fun s => s ++ "?") ⟨[]⟩ rfl

/-- C6: on a non-empty success mapping, `interpretChannelDeployResult` takes
`expireTime` from the first entry in insertion order, renders
`expire_time_formatted` from that same first timestamp with the RFC-1123
renderer (`new Date(...).toUTCString()`, the `toUTCString` parameter), and
collects the `url` of every entry in order, one per site. -/
theorem c6_interpret_channel_result (toUTCString : String → String)
    (deployResult : ChannelSuccessResult) (key : String) (firstSite : SiteDeploy)
    (rest : List (String × SiteDeploy))
    (h : deployResult.result = (key, firstSite) :: rest) :
    interpretChannelDeployResult toUTCString deployResult =
      Except.ok
        ⟨firstSite.expireTime, toUTCString firstSite.expireTime,
          (firstSite :: rest.map Prod.snd).map (fun siteResult => siteResult.url)⟩
    ∧ ((firstSite :: rest.map Prod.snd).map (fun siteResult => siteResult.url)).length =
        deployResult.result.length := by
  constructor
  · simp [interpretChannelDeployResult, h]
  · simp [h]

/-- Witness for C6 at the specification's two-site example, inserted in
order siteA then siteB. -/
theorem c6_interpret_channel_result_witness :
    (ChannelSuccessResult.mk [("siteA", siteA), ("siteB", siteB)]).result =
      ("siteA", siteA) :: [("siteB", siteB)]
    ∧ interpretChannelDeployResult (fun s => "RFC1123:" ++ s)
        ⟨[("siteA", siteA), ("siteB", siteB)]⟩ =
      Except.ok
        ⟨"2024-01-01T00:00:00.000Z", "RFC1123:2024-01-01T00:00:00.000Z",
          ["https://a", "https://b"]⟩ := by
  refine ⟨rfl, ?_⟩
  have h := (c6_interpret_channel_result (fun s => "RFC1123:" ++ s)
    ⟨[("siteA", siteA), ("siteB", siteB)]⟩ "siteA" siteA [("siteB", siteB)] rfl).1
  exact h.trans (by rfl)

/-- C3 counterexample: the raw text consisting of an empty JSON object is
valid JSON with no `status` field at all, yet `deployPreview` returns it as
the deployment result instead of failing: the parsed value is not validated
against the expected result shape. -/
theorem c3_no_status_validation_counterexample :
    (deployPreview [⟨["\x7b\x7d"], none⟩] auth0 previewCfg0).result =
      Except.ok (JsValue.obj [])
    ∧ jsGet (JsValue.obj []) "status" = none := by
  exact ⟨rfl, rfl⟩

/-- C3 amended: the result-parsing step fails exactly when `JSON.parse`
fails — a `SyntaxError`, which is a distinct error kind from a
`ProcessFailure` — and any text that parses as JSON, whether or not it has a
`status` field of `"success"` or `"error"`, is returned as the deployment
result without validation. -/
theorem c3_parse_amended (o : ExecOutcome) (rest : List ExecOutcome)
    (auth : AuthOptions) (cfg : ChannelDeployConfig) (pcfg : ProductionDeployConfig)
    (h : o.err = none) :
    (∀ v, jsonParse (jsTrim (lastChunkOrEmpty o.chunks)) = Except.ok v →
        (deployPreview (o :: rest) auth cfg).result = Except.ok v)
    ∧ (∀ e, jsonParse (jsTrim (lastChunkOrEmpty o.chunks)) = Except.error e →
        (deployPreview (o :: rest) auth cfg).result = Except.error e)
    ∧ (∀ v, jsonParse (lastChunkOrEmpty o.chunks) = Except.ok v →
        (deployProductionSite (o :: rest) auth pcfg).result = Except.ok v)
    ∧ (∀ e, jsonParse (lastChunkOrEmpty o.chunks) = Except.error e →
        (deployProductionSite (o :: rest) auth pcfg).result = Except.error e)
    ∧ (∀ m, JsError.syntaxError ≠ JsError.processFailure m) := by
  refine ⟨?_, ?_, ?_, ?_, ?_⟩
  · intro v hv
    rw [deployPreview_result _ _ _ _ h, hv]
  · intro e he
    rw [deployPreview_result _ _ _ _ h, he]
  · intro v hv
    rw [deployProductionSite_result _ _ _ _ h, hv]
  · intro e he
    rw [deployProductionSite_result _ _ _ _ h, he]
  · intro m hm
    exact JsError.noConfusion hm

/-- Witness for C3: a not-JSON chunk makes `deployPreview` fail with a
`SyntaxError`, and a valid JSON chunk with no `status` field is returned as
is. -/
theorem c3_parse_amended_witness :
    (ExecOutcome.mk ["not json"] none).err = none
    ∧ (deployPreview [⟨["not json"], none⟩] auth0 previewCfg0).result =
        Except.error JsError.syntaxError := by
  refine ⟨rfl, ?_⟩
  exact (c3_parse_amended ⟨["not json"], none⟩ [] auth0 previewCfg0 prodCfg0 rfl).2.1
    JsError.syntaxError rfl

/-- C9: when the captured output parses as a JSON object with status
`"error"` and an error message, `deployPreview` and `deployProductionSite`
return that Error-variant result as a normal, non-exceptional value; the
conversion into a thrown failure happens in the calling orchestration layer
(`runCheckDeployment`). -/
theorem c9_error_variant_flow (o : ExecOutcome) (rest : List ExecOutcome)
    (auth : AuthOptions) (cfg : ChannelDeployConfig) (pcfg : ProductionDeployConfig)
    (v : JsValue) (msg : String)
    (h : o.err = none)
    (hp : jsonParse (jsTrim (lastChunkOrEmpty o.chunks)) = Except.ok v)
    (hp2 : jsonParse (lastChunkOrEmpty o.chunks) = Except.ok v)
    (hs : jsGet v "status" = some (JsValue.str ("error")))
    (he : jsGet v "error" = some (JsValue.str msg)) :
    (deployPreview (o :: rest) auth cfg).result = Except.ok v
    ∧ (deployProductionSite (o :: rest) auth pcfg).result = Except.ok v
    ∧ runCheckDeployment v = Except.error (JsError.errorThrown msg) := by
  refine ⟨?_, ?_, ?_⟩
  · rw [deployPreview_result _ _ _ _ h, hp]
  · rw [deployProductionSite_result _ _ _ _ h, hp2]
  · simp [runCheckDeployment, hs, he]

/-- Witness for C9 at the raw text of an Error-variant result. -/
theorem c9_error_variant_flow_witness :
    (ExecOutcome.mk ["\x7b\"status\":\"error\",\"error\":\"boom\"\x7d"] none).err = none
    ∧ (deployPreview [⟨["\x7b\"status\":\"error\",\"error\":\"boom\"\x7d"], none⟩]
        auth0 previewCfg0).result =
      Except.ok (JsValue.obj
        [("status", JsValue.str ("error")), ("error", JsValue.str ("boom"))])
    ∧ runCheckDeployment
        (JsValue.obj
          [("status", JsValue.str ("error")), ("error", JsValue.str ("boom"))]) =
      Except.error (JsError.errorThrown ("boom")) := by
  have h := c9_error_variant_flow
    ⟨["\x7b\"status\":\"error\",\"error\":\"boom\"\x7d"], none⟩ [] auth0 previewCfg0 prodCfg0
    (JsValue.obj [("status", JsValue.str ("error")), ("error", JsValue.str ("boom"))])
    ("boom") rfl rfl rfl rfl rfl
  exact ⟨rfl, h.1, h.2.2⟩

/-- C10 counterexample: on the claim's own example input — a valid JSON
object followed by a trailing newline — `deployProductionSite` does not
throw: `JSON.parse` skips ASCII whitespace itself, so the untrimmed parse
succeeds just like the trimmed one, and no divergence occurs there. -/
theorem c10_trailing_newline_counterexample :
    (deployProductionSite [⟨["\x7b\"status\":\"error\",\"error\":\"x\"\x7d\n"], none⟩]
        auth0 prodCfg0).result =
      Except.ok (JsValue.obj
        [("status", JsValue.str ("error")), ("error", JsValue.str ("x"))])
    ∧ (deployPreview [⟨["\x7b\"status\":\"error\",\"error\":\"x\"\x7d\n"], none⟩]
        auth0 previewCfg0).result =
      Except.ok (JsValue.obj
        [("status", JsValue.str ("error")), ("error", JsValue.str ("x"))]) := by
  exact ⟨rfl, rfl⟩

/-- C10 amended: `deployPreview` trims with JavaScript `trim` before parsing
while `deployProductionSite` parses untrimmed, but `JSON.parse` accepts
surrounding ASCII whitespace by itself, so texts like a JSON object with a
trailing newline parse in both; the two functions diverge exactly on
whitespace removed by `trim` but rejected by `JSON.parse`, such as a trailing
no-break space U+00A0, where `deployPreview` returns the parsed result and
`deployProductionSite` throws a parse error on the identical raw text. -/
theorem c10_trim_divergence_amended :
    jsTrim (("\x7b\"status\":\"success\"\x7d" ++ "\u00A0")) = "\x7b\"status\":\"success\"\x7d"
    ∧ (deployPreview [⟨[("\x7b\"status\":\"success\"\x7d" ++ "\u00A0")], none⟩]
        auth0 previewCfg0).result =
      Except.ok (JsValue.obj [("status", JsValue.str ("success"))])
    ∧ (deployProductionSite [⟨[("\x7b\"status\":\"success\"\x7d" ++ "\u00A0")], none⟩]
        auth0 prodCfg0).result = Except.error JsError.syntaxError
    ∧ jsonParse ("\x7b\"status\":\"success\"\x7d\n") =
        Except.ok (JsValue.obj [("status", JsValue.str ("success"))]) := by
  exact ⟨rfl, rfl, rfl, rfl⟩

/-- C8: `deployPreview` composes the base argument list as
`["hosting:channel:deploy", channelId]`, then `--config <config>` iff config
is set, then `--only <targets joined by commas>` iff targets is non-empty,
then `--expires <expires>` iff expires is set; at the claim's concrete
configuration the list is exactly the stated eight-element list, and this
base list is what the preview deploy's process invocation receives (followed
by the credential arguments and the debug slot). -/
theorem c8_preview_args :
    (∀ c : ChannelDeployConfig,
      deployPreviewArgs c =
        ["hosting:channel:deploy", c.channelId]
          ++ (if optTruthy c.config then ["--config", c.config.getD ""] else [])
          ++ (match c.targets with
              | some ts =>
                if 0 < ts.length then ["--only", String.intercalate "," ts] else []
              | none => [])
          ++ (if strTruthy c.expires then ["--expires", c.expires] else []))
    ∧ deployPreviewArgs
        ⟨"", some ["a", "b"], some ("firebase.json"), none, "7d", "preview-1"⟩ =
        ["hosting:channel:deploy", "preview-1", "--config", "firebase.json",
          "--only", "a,b", "--expires", "7d"]
    ∧ (∀ (script : List ExecOutcome) (auth : AuthOptions) (c : ChannelDeployConfig),
        ((deployPreview script auth c).calls.head?).map CallRecord.args =
          some (composedArgs (deployPreviewArgs c) c.projectId auth false)) := by
  refine ⟨fun c => rfl, by rfl, ?_⟩
  intro script auth c
  rw [deployPreview_calls, execWithCredentials_calls_head]
  rfl
